import Mathlib

/-!
Shallow embedding of the process-supervision and log-aggregation core of the
`panel` crate (src/panel/src): the process manager (`process_manager.rs`),
the state-persistence layer (`state_persistence.rs`), the log database query
layer (`database.rs`) and the log-line level parser (`log_manager.rs`).

Modelling conventions:
* `chrono::DateTime<Utc>` timestamps become `Nat` (RFC3339 text of UTC
  timestamps is lexicographically monotone in time, so SQL text comparison
  agrees with numeric comparison on this model).
* `HashMap<String, _>` maps become association lists; insertion replaces any
  previous binding for the key.
* The state file is modelled at two levels: the raw-file level (`FileRead`,
  for load/parse error behaviour) and, for the lifecycle operations, as the
  already-parsed list of `ServiceState` records, with `load`-`modify`-`save`
  collapsed to pure list operations (the file system is assumed writable
  there).
* OS interactions (spawn results, the post-spawn settle probe, pid liveness)
  are inputs supplied by an environment record; wall-clock time is a `Nat`
  parameter.
-/

namespace Panel

/-- `models.rs`: `ServiceType`. -/
inductive ServiceType
  | Go | NodeJs | TypeScript | Php | Docker
deriving DecidableEq, Repr

/-- `models.rs`: `ServiceStatus`. -/
inductive ServiceStatus
  | Running | Stopped | Error | Starting | Stopping
deriving DecidableEq, Repr

/-- `models.rs`: `Service`. -/
structure Service where
  id : String
  name : String
  service_type : ServiceType
  status : ServiceStatus
  command : String
  working_dir : String
  port : Option Nat
  auto_restart : Bool
  restart_count : Nat
  created_at : Nat
  updated_at : Nat
  environment : List (String × String)
deriving DecidableEq, Repr

/-- `state_persistence.rs`: `ServiceState` (one persisted record). -/
structure ServiceState where
  service_id : String
  pid : Nat
  started_at : Nat
  command : String
  working_dir : String
  environment : List (String × String)
deriving DecidableEq, Repr

/-- `process_manager.rs`: `ManagedProcess`. The Rust `Option<Child>` handle is
modelled as the `Option Nat` pid of the handle (recovered entries have
`child = none`). -/
structure ManagedProcess where
  child : Option Nat
  service : Service
  start_time : Option Nat
  restart_count : Nat
  pid : Option Nat
deriving DecidableEq, Repr

/-- The shared state owned by `ProcessManager`: the live map
(`processes: HashMap<String, ManagedProcess>`) and the parsed contents of the
persisted state file. -/
structure PMState where
  processes : List (String × ManagedProcess)
  store : List ServiceState
deriving DecidableEq, Repr

/-- Association-list lookup for the live map. -/
def lookupProc (id : String) (m : List (String × ManagedProcess)) :
    Option ManagedProcess :=
  match m with
  | [] => none
  | (k, v) :: rest => if k = id then some v else lookupProc id rest

/-- `HashMap::insert`: replace any existing binding for the key. -/
def insertProc (id : String) (mp : ManagedProcess)
    (m : List (String × ManagedProcess)) : List (String × ManagedProcess) :=
  (id, mp) :: m.filter (fun p => p.1 ≠ id)

/-- `HashMap::remove`: drop the binding for the key, if any. -/
def eraseProc (id : String) (m : List (String × ManagedProcess)) :
    List (String × ManagedProcess) :=
  m.filter (fun p => p.1 ≠ id)

/-- `state_persistence.rs`: `add_or_update_service` on the parsed record list
(`retain` the other ids, then `push`). -/
def addOrUpdateService (s : ServiceState) (store : List ServiceState) :
    List ServiceState :=
  store.filter (fun t => t.service_id ≠ s.service_id) ++ [s]

/-- `state_persistence.rs`: `remove_service` on the parsed record list. -/
def removeService (id : String) (store : List ServiceState) :
    List ServiceState :=
  store.filter (fun t => t.service_id ≠ id)

/-! ### Character-level string helpers

Rust's string operations are modelled on `List Char` (via `String.data`) so
that all definitions reduce inside the kernel. -/

/-- `pat` is a leading segment of `s` (character-exact). -/
def leadsChars : List Char → List Char → Bool
  | [], _ => true
  | _ :: _, [] => false
  | a :: pa, b :: sb => a == b && leadsChars pa sb

/-- `pat` occurs contiguously inside `s`: Rust `str::contains`. -/
def containsChars (pat : List Char) : List Char → Bool
  | [] => pat.isEmpty
  | c :: rest => leadsChars pat (c :: rest) || containsChars pat rest

/-- Rust `str::to_uppercase` (ASCII fragment). -/
def upperChars (l : List Char) : List Char := l.map Char.toUpper

/-- Rust `str::to_lowercase` (ASCII fragment). -/
def lowerChars (l : List Char) : List Char := l.map Char.toLower

/-- One step of `split_whitespace`, folded from the right: accumulate the
current word and the finished words. -/
def splitWsF (c : Char) (st : List Char × List (List Char)) :
    List Char × List (List Char) :=
  if c.isWhitespace then
    if st.1.isEmpty then ([], st.2) else ([], st.1 :: st.2)
  else (c :: st.1, st.2)

/-- Rust `str::split_whitespace`: whitespace-delimited tokens, empty tokens
discarded. -/
def splitWs (l : List Char) : List (List Char) :=
  let st := l.foldr splitWsF ([], [])
  if st.1.isEmpty then st.2 else st.1 :: st.2

/-- SQLite `LIKE` matching with explicit fuel so the definition is structural
and kernel-reducible. `%` matches any run of characters, `_` any single
character, and plain characters compare ASCII-case-insensitively (SQLite's
default `LIKE` behaviour; `Char.toLower` folds exactly the ASCII range). -/
def likeMatchF : Nat → List Char → List Char → Bool
  | 0, _, _ => false
  | fuel + 1, p, s =>
    match p, s with
    | [], [] => true
    | [], _ :: _ => false
    | '%' :: ps, s =>
      likeMatchF fuel ps s ||
        (match s with
         | [] => false
         | _ :: s2 => likeMatchF fuel ('%' :: ps) s2)
    | '_' :: ps, _ :: s2 => likeMatchF fuel ps s2
    | '_' :: _, [] => false
    | c :: ps, d :: s2 => (Char.toLower c == Char.toLower d) && likeMatchF fuel ps s2
    | _ :: _, [] => false

/-- SQLite `LIKE`. Every recursive call of `likeMatchF` shortens the pattern
or the subject, so `p.length + s.length + 1` fuel is never exhausted. -/
def likeMatch (p s : List Char) : Bool :=
  likeMatchF (p.length + s.length + 1) p s

/-! ### Log level derivation (`log_manager.rs::parse_log_line`) -/

/-- The level component of `LogManager::parse_log_line`: uppercase the line,
then scan for keyword markers in a fixed order, defaulting to `"info"`. -/
def deriveLevel (line : String) : String :=
  let u := upperChars line.data
  if containsChars "ERROR".data u || containsChars "ERR".data u then "error"
  else if containsChars "WARN".data u || containsChars "WARNING".data u then "warn"
  else if containsChars "DEBUG".data u then "debug"
  else if containsChars "INFO".data u then "info"
  else "info"

/-! ### Log database (`database.rs`) -/

/-- `models.rs`: `LogEntry`; the row shape of the `logs` table. -/
structure LogEntry where
  timestamp : Nat
  service_id : String
  level : String
  message : String
deriving DecidableEq, Repr

/-- `database.rs`: `LogFilters`. The Rust fields `from`/`to` are named
`fromTs`/`toTs` here (`from` is reserved in Lean). -/
structure LogFilters where
  service_id : Option String
  level : Option String
  fromTs : Option Nat
  toTs : Option Nat
  search : Option String
  limit : Nat
  offset : Nat
deriving DecidableEq, Repr

/-- `impl Default for LogFilters`. -/
def LogFilters.default : LogFilters :=
  { service_id := none
    level := none
    fromTs := none
    toTs := none
    search := none
    limit := 1000
    offset := 0 }

/-- The WHERE clause `get_logs` builds: one conjunct per present filter.
The level conjunct compares the stored level verbatim against the lowercased
filter value and is skipped when the lowercased value is `"all"`; the search
conjunct is `message LIKE '%' || search || '%'` and is skipped when the
search string is empty. -/
def rowMatches (f : LogFilters) (e : LogEntry) : Bool :=
  (match f.service_id with
   | none => true
   | some sid => decide (e.service_id = sid)) &&
  (match f.level with
   | none => true
   | some lv =>
     if lowerChars lv.data ≠ "all".data then
       decide (e.level.data = lowerChars lv.data)
     else true) &&
  (match f.fromTs with
   | none => true
   | some t => decide (t ≤ e.timestamp)) &&
  (match f.toTs with
   | none => true
   | some t => decide (e.timestamp ≤ t)) &&
  (match f.search with
   | none => true
   | some srch =>
     if ¬srch.data.isEmpty then
       likeMatch ('%' :: srch.data ++ ['%']) e.message.data
     else true)

/-- Insert an entry into a list kept sorted by descending timestamp. -/
def insertDescByTs (e : LogEntry) : List LogEntry → List LogEntry
  | [] => [e]
  | x :: xs =>
    if x.timestamp ≤ e.timestamp then e :: x :: xs
    else x :: insertDescByTs e xs

/-- `ORDER BY timestamp DESC`, modelled as an insertion sort. (SQLite leaves
the relative order of equal keys unspecified; this model fixes one.) -/
def sortDescByTs (l : List LogEntry) : List LogEntry :=
  l.foldr insertDescByTs []

/-- `LogDatabase::get_logs` over the table contents: filter by the WHERE
conjunction, sort newest-first, apply `OFFSET` then `LIMIT`, and reverse so
the result is oldest-first. -/
def getLogs (f : LogFilters) (db : List LogEntry) : List LogEntry :=
  (((sortDescByTs (db.filter (rowMatches f))).drop f.offset).take f.limit).reverse

/-! ### Process supervisor (`process_manager.rs`) -/

/-- The error exits of `start_service`, in source order. -/
inductive StartErr
  | logDirCreateFailed
  | logFileOpenFailed
  | emptyCommand
  | workingDirNotFound
  | spawnFailed
  | exitedImmediately
deriving DecidableEq, Repr

/-- Outcome of the single `try_wait` probe after the 500 ms settle sleep:
the child already exited, is still running, or the probe itself failed
(the source only logs a probe failure and proceeds). -/
inductive SettleObs
  | exited
  | still
  | checkErr
deriving DecidableEq, Repr

/-- OS-dependent inputs of one `start_service` call. -/
structure StartEnv where
  createDirOk : Bool
  openLogOk : Bool
  dirExists : String → Bool
  spawnResult : Option Nat
  settle : SettleObs
  now : Nat

/-- `ProcessManager::start_service`. The port-reclaim step
(`kill_process_by_port`) is best-effort and touches no managed state, so it
is not modelled; the state-file write is modelled as reliable. On success
the live map is updated first, then the persisted store. -/
def startService (env : StartEnv) (service : Service) (st : PMState) :
    Except StartErr Unit × PMState :=
  if ¬env.createDirOk then (.error .logDirCreateFailed, st)
  else if ¬env.openLogOk then (.error .logFileOpenFailed, st)
  else if (splitWs service.command.data).isEmpty then (.error .emptyCommand, st)
  else if ¬env.dirExists service.working_dir then (.error .workingDirNotFound, st)
  else
    match env.spawnResult with
    | none => (.error .spawnFailed, st)
    | some pid =>
      match env.settle with
      | .exited => (.error .exitedImmediately, st)
      | .still | .checkErr =>
        let service2 := { service with status := .Running, updated_at := env.now }
        let managed : ManagedProcess :=
          { child := some pid
            service := service2
            start_time := some env.now
            restart_count := 0
            pid := some pid }
        let record : ServiceState :=
          { service_id := service.id
            pid := pid
            started_at := env.now
            command := service.command
            working_dir := service.working_dir
            environment := service.environment }
        (.ok (),
         { processes := insertProc service.id managed st.processes
           store := addOrUpdateService record st.store })

/-- The best-effort child terminations `stop_service` performs (results are
discarded by the source: `let _ = child.kill(); let _ = child.wait();`). -/
inductive StopAction
  | killChild (handle : Nat)
  | waitChild (handle : Nat)
deriving DecidableEq, Repr

/-- `ProcessManager::stop_service`: remove the live-map entry (absent entries
are not an error), best-effort kill/wait when a handle exists, remove the
persisted record, and return `Ok(())` — the source has no other return. -/
def stopService (id : String) (st : PMState) :
    Except String Unit × PMState × List StopAction :=
  let acts :=
    match lookupProc id st.processes with
    | some m =>
      match m.child with
      | some h => [StopAction.killChild h, StopAction.waitChild h]
      | none => []
    | none => []
  (.ok (),
   { processes := eraseProc id st.processes, store := removeService id st.store },
   acts)

/-- `ProcessManager::restart_service`: stop, sleep one second, then look the
service up in the live map and start its snapshot if one is found. The `?`
after `stop_service` can never propagate (stop always returns `Ok`). -/
def restartService (env : StartEnv) (id : String) (st : PMState) :
    Except StartErr Unit × PMState :=
  let stopped := stopService id st
  let st1 := stopped.2.1
  match lookupProc id st1.processes with
  | some managed => startService env managed.service st1
  | none => (.ok (), st1)

/-- What one monitor-loop iteration observes from `child.try_wait()`; on an
exit, `logOpenOk` and `respawn` supply the outcomes of the log-file reopen
and of the respawn attempt that the iteration may perform. -/
inductive MonitorObs
  | still
  | waitErr
  | exited (logOpenOk : Bool) (respawn : Option Nat)
deriving DecidableEq, Repr

/-- One iteration of `ProcessManager::monitor_process`. Returns the new state
and whether the loop continues. The `service` argument is the snapshot the
task captured at spawn time; the monitor has no reference to the
state-persistence layer, so `st.store` is only ever threaded through. -/
def monitorStep (sid : String) (autoRestart : Bool) (maxAttempts : Nat)
    (service : Service) (now : Nat) (obs : MonitorObs) (st : PMState) :
    PMState × Bool :=
  match lookupProc sid st.processes with
  | none => (st, false)
  | some managed =>
    match managed.child with
    | none => (st, false)
    | some _ =>
      match obs with
      | .still => (st, true)
      | .waitErr => (st, false)
      | .exited logOpenOk respawn =>
        let m1 := { managed with
                    child := none
                    service := { managed.service with
                                 status := .Error, updated_at := now } }
        if autoRestart ∧ m1.restart_count < maxAttempts then
          let m2 := { m1 with
                      restart_count := m1.restart_count + 1
                      service := { m1.service with
                                   restart_count := m1.restart_count + 1 } }
          let st2 : PMState := { st with processes := insertProc sid m2 st.processes }
          if ¬logOpenOk then (st2, false)
          else if (splitWs service.command.data).isEmpty then (st2, false)
          else
            match respawn with
            | none => (st2, false)
            | some newPid =>
              match lookupProc sid st2.processes with
              | none => (st2, true)
              | some m3 =>
                let m4 := { m3 with
                            child := some newPid
                            pid := some newPid
                            start_time := some now
                            service := { m3.service with
                                         status := .Running, updated_at := now } }
                ({ st2 with processes := insertProc sid m4 st2.processes }, true)
        else
          ({ st with processes := insertProc sid m1 st.processes }, false)

/-- The monitor loop, driven by the successive `try_wait` observations. -/
def monitorRun (sid : String) (autoRestart : Bool) (maxAttempts : Nat)
    (service : Service) (now : Nat) : List MonitorObs → PMState → PMState
  | [], st => st
  | obs :: rest, st =>
    match monitorStep sid autoRestart maxAttempts service now obs st with
    | (st1, true) => monitorRun sid autoRestart maxAttempts service now rest st1
    | (st1, false) => st1

/-! ### State-file loading and recovery -/

/-- What reading the state file can yield: no file, an unreadable file, or
its textual content. -/
inductive FileRead
  | absent
  | unreadable
  | content (s : String)

/-- `StatePersistence::load_state`. `parse` stands for
`serde_json::from_str::<StateFile>` followed by the `.services` projection;
`s.data.all Char.isWhitespace` is `content.trim().is_empty()`. -/
def loadStateFile (file : FileRead)
    (parse : String → Option (List ServiceState)) :
    Except String (List ServiceState) :=
  match file with
  | .absent => .ok []
  | .unreadable => .error "Failed to read state file"
  | .content s =>
    if s.data.all Char.isWhitespace then .ok []
    else
      match parse s with
      | some services => .ok services
      | none => .error "Failed to parse state file JSON"

/-- OS inputs of recovery: pid liveness and the wall clock. -/
structure RecoverEnv where
  alive : Nat → Bool
  now : Nat

/-- The `services_map` lookup in `recover_processes`: the map is built from
the vector by repeated insertion, so the **last** descriptor with a given id
wins. -/
def findService (services : List Service) (id : String) : Option Service :=
  match services with
  | [] => none
  | s :: rest =>
    match findService rest id with
    | some r => some r
    | none => if s.id = id then some s else none

/-- The body of the `for saved_state in saved_states` loop of
`recover_processes`: re-attach a live pid whose service is known (handle-less
entry, refreshed persisted record), otherwise drop the persisted record. -/
def recoverOne (env : RecoverEnv) (services : List Service)
    (saved : ServiceState) (st : PMState) : PMState :=
  if env.alive saved.pid then
    match findService services saved.service_id with
    | some service =>
      let service2 := { service with status := .Running, updated_at := env.now }
      let managed : ManagedProcess :=
        { child := none
          service := service2
          start_time := some env.now
          restart_count := 0
          pid := some saved.pid }
      let updated : ServiceState :=
        { service_id := saved.service_id
          pid := saved.pid
          started_at := saved.started_at
          command := saved.command
          working_dir := saved.working_dir
          environment := saved.environment }
      { processes := insertProc saved.service_id managed st.processes
        store := addOrUpdateService updated st.store }
    | none => { st with store := removeService saved.service_id st.store }
  else
    { st with store := removeService saved.service_id st.store }

/-- The recovery loop over all loaded records. -/
def recoverStates (env : RecoverEnv) (services : List Service) :
    List ServiceState → PMState → PMState
  | [], st => st
  | saved :: rest, st =>
    recoverStates env services rest (recoverOne env services saved st)

/-- `ProcessManager::recover_processes`: load the state file (propagating a
load error with `?`), return early when nothing was saved, otherwise run the
recovery loop. -/
def recoverProcesses (file : FileRead)
    (parse : String → Option (List ServiceState)) (env : RecoverEnv)
    (services : List Service) (st : PMState) :
    Except String Unit × PMState :=
  match loadStateFile file parse with
  | .error e => (.error e, st)
  | .ok savedStates =>
    if savedStates.isEmpty then (.ok (), st)
    else (.ok (), recoverStates env services savedStates st)

/-- The boot-time call site (`server.rs`): a failed recovery is logged and
discarded, so booting continues with whatever state resulted. -/
def bootRecover (file : FileRead)
    (parse : String → Option (List ServiceState)) (env : RecoverEnv)
    (services : List Service) (st : PMState) : PMState :=
  (recoverProcesses file parse env services st).2

/-! ### Helper lemmas about the live map and the store -/

theorem lookupProc_eraseProc (id : String) (m : List (String × ManagedProcess)) :
    lookupProc id (eraseProc id m) = none := by
  induction m with
  | nil => rfl
  | cons p rest ih =>
    by_cases h : p.1 = id
    · simpa [eraseProc, List.filter_cons, h] using ih
    · simpa [eraseProc, List.filter_cons, h, lookupProc] using ih

theorem eraseProc_idem (id : String) (m : List (String × ManagedProcess)) :
    eraseProc id (eraseProc id m) = eraseProc id m := by
  simp [eraseProc, List.filter_filter]

theorem removeService_idem (id : String) (store : List ServiceState) :
    removeService id (removeService id store) = removeService id store := by
  simp [removeService, List.filter_filter]

theorem lookupProc_insertProc_self (id : String) (mp : ManagedProcess)
    (m : List (String × ManagedProcess)) :
    lookupProc id (insertProc id mp m) = some mp := by
  simp [insertProc, lookupProc]

theorem lookupProc_cons (id : String) (p : String × ManagedProcess)
    (rest : List (String × ManagedProcess)) :
    lookupProc id (p :: rest) = if p.1 = id then some p.2 else lookupProc id rest :=
  rfl

theorem lookupProc_filter_keep (id id' : String)
    (m : List (String × ManagedProcess)) (h : id ≠ id') :
    lookupProc id (m.filter (fun p => p.1 ≠ id')) = lookupProc id m := by
  have h2 : id' ≠ id := fun hc => h hc.symm
  induction m with
  | nil => rfl
  | cons p rest ih =>
    rw [List.filter_cons, lookupProc_cons]
    by_cases hq : p.1 = id'
    · have hp : p.1 ≠ id := by rw [hq]; exact h2
      rw [if_neg (by simpa using hq), if_neg hp]
      exact ih
    · rw [if_pos (by simpa using hq), lookupProc_cons]
      by_cases hp : p.1 = id
      · rw [if_pos hp, if_pos hp]
      · rw [if_neg hp, if_neg hp]
        exact ih

theorem lookupProc_insertProc_ne (id id' : String) (mp : ManagedProcess)
    (m : List (String × ManagedProcess)) (h : id ≠ id') :
    lookupProc id (insertProc id' mp m) = lookupProc id m := by
  have h' : id' ≠ id := fun hc => h hc.symm
  show (if id' = id then some mp
        else lookupProc id (m.filter (fun p => p.1 ≠ id'))) = lookupProc id m
  rw [if_neg h']
  exact lookupProc_filter_keep id id' m h

theorem mem_removeService (t : ServiceState) (id : String)
    (store : List ServiceState) :
    t ∈ removeService id store ↔ t ∈ store ∧ t.service_id ≠ id := by
  simp [removeService]

theorem mem_addOrUpdateService (t s : ServiceState) (store : List ServiceState) :
    t ∈ addOrUpdateService s store ↔
      (t ∈ store ∧ t.service_id ≠ s.service_id) ∨ t = s := by
  simp [addOrUpdateService]

/-! ### Concrete fixtures for witnesses and counterexamples -/

/-- A sample detected service. -/
def sampleService : Service :=
  { id := "svc"
    name := "Svc"
    service_type := .NodeJs
    status := .Stopped
    command := "npm run dev"
    working_dir := "/app"
    port := none
    auto_restart := true
    restart_count := 0
    created_at := 0
    updated_at := 0
    environment := [] }

/-- An environment in which starting succeeds with pid 42. -/
def sampleEnv : StartEnv :=
  { createDirOk := true
    openLogOk := true
    dirExists := fun _ => true
    spawnResult := some 42
    settle := .still
    now := 7 }

/-- An environment in which the spawn itself fails. -/
def sampleBadEnv : StartEnv :=
  { sampleEnv with spawnResult := none }

/-- The boot state: empty live map, empty store. -/
def emptyState : PMState := { processes := [], store := [] }

/-- The state after `sampleService` has been started successfully. -/
def sampleStarted : PMState := (startService sampleEnv sampleService emptyState).2

/-! ### Claim theorems -/

/-- The claim-side vocabulary for C9: the line, compared case-insensitively,
contains the keyword. -/
def hasKeyword (k line : String) : Prop :=
  containsChars k.data (upperChars line.data) = true

/-- C9: for every log line, the derived level is "error" if the line,
compared case-insensitively, contains ERROR or ERR; otherwise "warn" if it
contains WARN or WARNING; otherwise "debug" if it contains DEBUG; otherwise
"info", including when no keyword is present. -/
theorem parse_log_line_level_cases (line : String) :
    (deriveLevel line = "error" ↔
      (hasKeyword "ERROR" line ∨ hasKeyword "ERR" line)) ∧
    (deriveLevel line = "warn" ↔
      (¬(hasKeyword "ERROR" line ∨ hasKeyword "ERR" line) ∧
       (hasKeyword "WARN" line ∨ hasKeyword "WARNING" line))) ∧
    (deriveLevel line = "debug" ↔
      (¬(hasKeyword "ERROR" line ∨ hasKeyword "ERR" line) ∧
       ¬(hasKeyword "WARN" line ∨ hasKeyword "WARNING" line) ∧
       hasKeyword "DEBUG" line)) ∧
    (deriveLevel line = "info" ↔
      (¬(hasKeyword "ERROR" line ∨ hasKeyword "ERR" line) ∧
       ¬(hasKeyword "WARN" line ∨ hasKeyword "WARNING" line) ∧
       ¬hasKeyword "DEBUG" line)) := by
  unfold deriveLevel hasKeyword
  cases hE : containsChars "ERROR".data (upperChars line.data) <;>
  cases hR : containsChars "ERR".data (upperChars line.data) <;>
  cases hW : containsChars "WARN".data (upperChars line.data) <;>
  cases hG : containsChars "WARNING".data (upperChars line.data) <;>
  cases hD : containsChars "DEBUG".data (upperChars line.data) <;>
  cases hI : containsChars "INFO".data (upperChars line.data) <;>
    simp [hE, hR, hW, hG, hD, hI]

/-- C7: for every service id — started or not — stop returns success, removes
the live-map entry, removes the persisted record, emits the best-effort
kill/wait pair exactly when a child handle exists, and is idempotent. -/
theorem stop_service_total_idempotent (id : String) (st : PMState) :
    (stopService id st).1 = .ok () ∧
    lookupProc id (stopService id st).2.1.processes = none ∧
    (∀ t ∈ (stopService id st).2.1.store, t.service_id ≠ id) ∧
    (stopService id (stopService id st).2.1).2.1 = (stopService id st).2.1 ∧
    (∀ m h, lookupProc id st.processes = some m → m.child = some h →
       (stopService id st).2.2 = [.killChild h, .waitChild h]) := by
  refine ⟨rfl, lookupProc_eraseProc id st.processes, ?_, ?_, ?_⟩
  · intro t ht
    exact ((mem_removeService t id st.store).mp ht).2
  · show PMState.mk (eraseProc id (eraseProc id st.processes))
        (removeService id (removeService id st.store)) =
      PMState.mk (eraseProc id st.processes) (removeService id st.store)
    rw [eraseProc_idem, removeService_idem]
  · intro m h hm hc
    simp [stopService, hm, hc]

/-- Witness for C7 at a started service: stop succeeds and emits the
kill/wait pair for the spawned handle. -/
theorem stop_service_total_idempotent_witness :
    (stopService "svc" sampleStarted).1 = .ok () ∧
    (stopService "svc" sampleStarted).2.2 = [.killChild 42, .waitChild 42] := by
  have h := stop_service_total_idempotent "svc" sampleStarted
  exact ⟨h.1, h.2.2.2.2 _ 42 rfl rfl⟩

/-- C8: whenever `start_service` returns an error — empty command, missing
working directory, spawn failure, or immediate exit — the live map and the
persisted store are left untouched: the service is not registered. -/
theorem start_service_error_no_registration (env : StartEnv) (service : Service)
    (st : PMState) (e : StartErr) :
    (startService env service st).1 = .error e →
    (startService env service st).2 = st := by
  unfold startService
  rcases hsp : env.spawnResult with _ | pid <;>
    rcases hst : env.settle <;>
      split_ifs <;> simp_all

/-- Witness for C8: a failed spawn reports an error and registers nothing. -/
theorem start_service_error_no_registration_witness :
    (startService sampleBadEnv sampleService emptyState).1 = .error .spawnFailed ∧
    (startService sampleBadEnv sampleService emptyState).2 = emptyState :=
  ⟨rfl, start_service_error_no_registration _ _ _ _ rfl⟩

/-- C2: whenever `start_service` returns success, the live map holds the
service with status Running and the child pid that was spawned, and the
persisted store holds a record for the service id with that same pid. -/
theorem start_service_success_registers (env : StartEnv) (service : Service)
    (st : PMState) :
    (startService env service st).1 = .ok () →
    ∃ pid, env.spawnResult = some pid ∧
      (∃ m, lookupProc service.id (startService env service st).2.processes = some m ∧
         m.service.status = .Running ∧ m.child = some pid ∧ m.pid = some pid) ∧
      (∃ rec, rec ∈ (startService env service st).2.store ∧
         rec.service_id = service.id ∧ rec.pid = pid) := by
  unfold startService
  rcases hsp : env.spawnResult with _ | pid <;>
    rcases hst : env.settle <;>
      split_ifs <;> intro h
  all_goals first
    | exact ⟨pid, rfl,
        ⟨_, lookupProc_insertProc_self _ _ _, rfl, rfl, rfl⟩,
        ⟨_, (mem_addOrUpdateService _ _ _).mpr (Or.inr rfl), rfl, rfl⟩⟩
    | (exfalso; simp at h)

/-- Witness for C2: the sample start succeeds and registers pid 42. -/
theorem start_service_success_registers_witness :
    (startService sampleEnv sampleService emptyState).1 = .ok () ∧
    ∃ pid, sampleEnv.spawnResult = some pid ∧
      (∃ m, lookupProc sampleService.id
          (startService sampleEnv sampleService emptyState).2.processes = some m ∧
         m.service.status = .Running ∧ m.child = some pid ∧ m.pid = some pid) ∧
      (∃ rec, rec ∈ (startService sampleEnv sampleService emptyState).2.store ∧
         rec.service_id = sampleService.id ∧ rec.pid = pid) :=
  ⟨rfl, start_service_success_registers sampleEnv sampleService emptyState rfl⟩

/-- C1 (code evaluation at the failing input): after a successful start the
snapshot exists in the live map, yet `restart_service` — because its own
`stop_service` call removes that entry before the snapshot lookup — returns
`Ok` having started nothing (live map and store end empty); and for an id
that was never started, `restart_service` also returns `Ok` instead of
failing. -/
theorem restart_service_never_restarts :
    lookupProc "svc" sampleStarted.processes ≠ none ∧
    (restartService sampleEnv "svc" sampleStarted).1 = .ok () ∧
    (restartService sampleEnv "svc" sampleStarted).2.processes = [] ∧
    (restartService sampleEnv "svc" sampleStarted).2.store = [] ∧
    (restartService sampleEnv "missing" emptyState).1 = .ok () :=
  ⟨by decide, rfl, by decide, by decide, rfl⟩

/-- A recovery environment in which no pid is alive. -/
def sampleRecEnv : RecoverEnv := { alive := fun _ => false, now := 0 }

/-- Counterexample to C4: on state-file content that is not valid JSON
(every parse fails), recovery returns an error instead of treating it as
"no prior state" and succeeding. -/
theorem recover_corrupt_state_errors :
    (recoverProcesses (.content "not json") (fun _ => none) sampleRecEnv []
        emptyState).1 = .error "Failed to parse state file JSON" := rfl

/-- C4 as amended: an absent state file, or one whose content is blank,
yields the empty persisted set and success with the state untouched; an
unreadable or unparsable state file makes `load_state` — and hence
`recover_processes` — return an error, leaving the state untouched; that
error is swallowed at the boot call site, so booting continues as if there
were no prior state. -/
theorem recover_load_error_behavior
    (parse : String → Option (List ServiceState)) (env : RecoverEnv)
    (services : List Service) (st : PMState) (s : String) :
    recoverProcesses .absent parse env services st = (.ok (), st) ∧
    (s.data.all Char.isWhitespace = true →
       recoverProcesses (.content s) parse env services st = (.ok (), st)) ∧
    ((recoverProcesses .unreadable parse env services st).1 =
       .error "Failed to read state file" ∧
     (recoverProcesses .unreadable parse env services st).2 = st ∧
     bootRecover .unreadable parse env services st = st) ∧
    (s.data.all Char.isWhitespace = false → parse s = none →
       (recoverProcesses (.content s) parse env services st).1 =
         .error "Failed to parse state file JSON" ∧
       bootRecover (.content s) parse env services st = st) := by
  refine ⟨rfl, ?_, ⟨rfl, rfl, rfl⟩, ?_⟩
  · intro hblank
    simp [recoverProcesses, loadStateFile, hblank]
  · intro hblank hparse
    constructor <;>
      simp [recoverProcesses, bootRecover, loadStateFile, hblank, hparse]

/-- Witness for C4 (amended): blank content yields success with no change;
unparsable content yields a parse error but boot proceeds unchanged. -/
theorem recover_load_error_behavior_witness :
    recoverProcesses (.content " ") (fun _ => none) sampleRecEnv [] emptyState =
      (.ok (), emptyState) ∧
    (recoverProcesses (.content "x") (fun _ => none) sampleRecEnv []
        emptyState).1 = .error "Failed to parse state file JSON" ∧
    bootRecover (.content "x") (fun _ => none) sampleRecEnv [] emptyState =
      emptyState := by
  refine ⟨(recover_load_error_behavior (fun _ => none) sampleRecEnv [] emptyState
      " ").2.1 (by decide), ?_, ?_⟩
  · exact ((recover_load_error_behavior (fun _ => none) sampleRecEnv [] emptyState
      "x").2.2.2 (by decide) rfl).1
  · exact ((recover_load_error_behavior (fun _ => none) sampleRecEnv [] emptyState
      "x").2.2.2 (by decide) rfl).2

/-! ### Monitor-task lemmas -/
/-- Every branch of a monitor iteration leaves the persisted store alone:
the source task holds no reference to the persistence layer. -/
theorem monitorStep_store (sid : String) (auto : Bool) (N : Nat) (svc : Service)
    (now : Nat) (obs : MonitorObs) (st : PMState) :
    (monitorStep sid auto N svc now obs st).1.store = st.store := by
  rcases hl : lookupProc sid st.processes with _ | m
  · simp [monitorStep, hl]
  · rcases hc : m.child with _ | h
    · simp [monitorStep, hl, hc]
    · rcases obs with _ | _ | ⟨lo, rs⟩
      · simp [monitorStep, hl, hc]
      · simp [monitorStep, hl, hc]
      · simp only [monitorStep, hl, hc]
        repeat' split
        all_goals rfl

/-- An exit observed while attempts are exhausted (or auto-restart is off)
clears the handle, records status Error, and stops the loop. -/
theorem monitorStep_exhausted (sid : String) (auto : Bool) (N : Nat)
    (svc : Service) (now : Nat) (st : PMState) (m : ManagedProcess) (h : Nat)
    (lo : Bool) (rs : Option Nat)
    (hm : lookupProc sid st.processes = some m) (hc : m.child = some h)
    (hstop : auto = false ∨ N ≤ m.restart_count) :
    monitorStep sid auto N svc now (.exited lo rs) st =
      (PMState.mk
        (insertProc sid
          (ManagedProcess.mk none
            { m.service with status := .Error, updated_at := now }
            m.start_time m.restart_count m.pid)
          st.processes)
        st.store, false) := by
  simp only [monitorStep, hm, hc]
  rw [if_neg]
  rintro ⟨hauto, hlt⟩
  rcases hstop with hfalse | hle
  · rw [hfalse] at hauto
    exact Bool.false_ne_true hauto
  · exact absurd hlt (not_lt.mpr hle)

/-- An exit observed while attempts remain (auto-restart on, log file opens,
command non-empty, respawn succeeds) increments the attempt counter, installs
the new child handle and pid, sets status Running, and continues the loop —
all without touching the store. -/
theorem monitorStep_respawn (sid : String) (N : Nat) (svc : Service)
    (now : Nat) (st : PMState) (m : ManagedProcess) (h q : Nat)
    (hm : lookupProc sid st.processes = some m) (hc : m.child = some h)
    (hcount : m.restart_count < N)
    (hcmd : (splitWs svc.command.data).isEmpty = false) :
    ∃ st', monitorStep sid true N svc now (.exited true (some q)) st = (st', true) ∧
      st'.store = st.store ∧
      lookupProc sid st'.processes = some
        (ManagedProcess.mk (some q)
          { m.service with
            status := .Running, updated_at := now,
            restart_count := m.restart_count + 1 }
          (some now) (m.restart_count + 1) (some q)) := by
  simp only [monitorStep, hm, hc]
  rw [if_pos ⟨by trivial, hcount⟩]
  rw [if_neg (by simp), if_neg (by simp [hcmd])]
  rw [lookupProc_insertProc_self]
  exact ⟨_, rfl, rfl, lookupProc_insertProc_self _ _ _⟩

/-- One monitor iteration cannot push the attempt counter past the cap. -/
theorem monitorStep_count_le (sid : String) (N : Nat) (svc : Service)
    (now : Nat) (obs : MonitorObs) (st : PMState)
    (hinv : ∀ m, lookupProc sid st.processes = some m → m.restart_count ≤ N) :
    ∀ m', lookupProc sid (monitorStep sid true N svc now obs st).1.processes =
        some m' → m'.restart_count ≤ N := by
  rcases hl : lookupProc sid st.processes with _ | m
  · simpa [monitorStep, hl] using hinv
  · have hmN : m.restart_count ≤ N := hinv m hl
    rcases hc : m.child with _ | h
    · simpa [monitorStep, hl, hc] using hinv
    · rcases obs with _ | _ | ⟨lo, rs⟩
      · simpa [monitorStep, hl, hc] using hinv
      · simpa [monitorStep, hl, hc] using hinv
      · simp only [monitorStep, hl, hc]
        split_ifs with hcond hlo hcmd2
        all_goals try (rcases rs with _ | newPid)
        all_goals try (rw [lookupProc_insertProc_self]; dsimp only)
        all_goals intro m' hm'
        all_goals try rw [lookupProc_insertProc_self] at hm'
        all_goals rcases Option.some.inj hm' with rfl
        all_goals first | exact hcond.2 | exact hmN

/-- The whole monitor loop leaves the persisted store alone. -/
theorem monitorRun_store (sid : String) (auto : Bool) (N : Nat) (svc : Service)
    (now : Nat) (obsL : List MonitorObs) (st : PMState) :
    (monitorRun sid auto N svc now obsL st).store = st.store := by
  induction obsL generalizing st with
  | nil => rfl
  | cons obs rest ih =>
    unfold monitorRun
    rcases hstep : monitorStep sid auto N svc now obs st with ⟨st1, cont⟩
    have hs : st1.store = st.store := by
      have h0 := monitorStep_store sid auto N svc now obs st
      rw [hstep] at h0
      exact h0
    cases cont
    · exact hs
    · exact (ih st1).trans hs

/-- The attempt-counter bound is preserved by the whole monitor loop. -/
theorem monitorRun_count_le (sid : String) (N : Nat) (svc : Service)
    (now : Nat) (obsL : List MonitorObs) :
    ∀ st : PMState,
      (∀ m, lookupProc sid st.processes = some m → m.restart_count ≤ N) →
      ∀ m', lookupProc sid (monitorRun sid true N svc now obsL st).processes =
          some m' → m'.restart_count ≤ N := by
  induction obsL with
  | nil => intro st hinv; exact hinv
  | cons obs rest ih =>
    intro st hinv
    unfold monitorRun
    rcases hstep : monitorStep sid true N svc now obs st with ⟨st1, cont⟩
    have h1 : ∀ m, lookupProc sid st1.processes = some m → m.restart_count ≤ N := by
      have h0 := monitorStep_count_le sid N svc now obs st hinv
      rw [hstep] at h0
      exact h0
    cases cont
    · exact h1
    · exact ih st1 h1

/-- C5: with auto-restart on and `max_restart_attempts = N`, the monitor
respawns only while `restart_count < N`, incrementing the counter before the
respawn, so the counter never exceeds N; on the exit at which attempts are
exhausted — or whenever auto-restart is disabled — the loop stops
immediately, consuming no further observations and leaving the entry with no
child handle and status Error. -/
theorem monitor_restart_cap (sid : String) (N : Nat) (svc : Service) (now : Nat) :
    (∀ (obsL : List MonitorObs) (st : PMState),
       (∀ m, lookupProc sid st.processes = some m → m.restart_count ≤ N) →
       ∀ m', lookupProc sid (monitorRun sid true N svc now obsL st).processes =
           some m' → m'.restart_count ≤ N) ∧
    (∀ (st : PMState) (m : ManagedProcess) (h : Nat) (lo : Bool)
       (rs : Option Nat) (obsL : List MonitorObs),
       lookupProc sid st.processes = some m → m.child = some h →
       N ≤ m.restart_count →
       monitorRun sid true N svc now (.exited lo rs :: obsL) st =
         PMState.mk
           (insertProc sid
             (ManagedProcess.mk none
               { m.service with status := .Error, updated_at := now }
               m.start_time m.restart_count m.pid)
             st.processes)
           st.store) ∧
    (∀ (st : PMState) (m : ManagedProcess) (h : Nat) (lo : Bool)
       (rs : Option Nat) (obsL : List MonitorObs),
       lookupProc sid st.processes = some m → m.child = some h →
       monitorRun sid false N svc now (.exited lo rs :: obsL) st =
         PMState.mk
           (insertProc sid
             (ManagedProcess.mk none
               { m.service with status := .Error, updated_at := now }
               m.start_time m.restart_count m.pid)
             st.processes)
           st.store) ∧
    (∀ (st : PMState) (m : ManagedProcess) (h q : Nat),
       lookupProc sid st.processes = some m → m.child = some h →
       m.restart_count < N → (splitWs svc.command.data).isEmpty = false →
       ∃ m', lookupProc sid
           (monitorStep sid true N svc now (.exited true (some q)) st).1.processes =
             some m' ∧
         m'.restart_count = m.restart_count + 1 ∧ m'.child = some q) := by
  refine ⟨monitorRun_count_le sid N svc now, ?_, ?_, ?_⟩
  · intro st m h lo rs obsL hm hc hle
    unfold monitorRun
    rw [monitorStep_exhausted sid true N svc now st m h lo rs hm hc (Or.inr hle)]
  · intro st m h lo rs obsL hm hc
    unfold monitorRun
    rw [monitorStep_exhausted sid false N svc now st m h lo rs hm hc (Or.inl rfl)]
  · intro st m h q hm hc hcount hcmd
    obtain ⟨st', hstep, _, hlook⟩ :=
      monitorStep_respawn sid N svc now st m h q hm hc hcount hcmd
    rw [hstep]
    exact ⟨_, hlook, rfl, rfl⟩

/-- A state whose only entry has exhausted its two restart attempts. -/
def exhaustedState : PMState :=
  { processes := [("svc",
      { child := some 42
        service := sampleService
        start_time := some 7
        restart_count := 2
        pid := some 42 })]
    store := [] }

/-- Witness for C5: with N = 2, an exit at `restart_count = 2` stops the
loop with no handle and status Error, and an exit at `restart_count = 0`
respawns with the counter at 1. -/
theorem monitor_restart_cap_witness :
    (monitorRun "svc" true 2 sampleService 7 [.exited true (some 9)]
        exhaustedState =
      PMState.mk
        (insertProc "svc"
          (ManagedProcess.mk none
            { sampleService with status := .Error, updated_at := 7 }
            (some 7) 2 (some 42))
          exhaustedState.processes)
        exhaustedState.store) ∧
    (∃ m', lookupProc "svc"
        (monitorStep "svc" true 2 sampleService 7 (.exited true (some 9))
          sampleStarted).1.processes = some m' ∧
      m'.restart_count = 1 ∧ m'.child = some 9) := by
  constructor
  · exact (monitor_restart_cap "svc" 2 sampleService 7).2.1 exhaustedState
      _ 42 true (some 9) [] rfl rfl (by decide)
  · exact (monitor_restart_cap "svc" 2 sampleService 7).2.2.2 sampleStarted
      _ 42 9 rfl rfl (by decide) (by decide)

/-- C10: a monitor iteration — in particular an auto-restart respawn —
mutates only the live-map entry; the persisted store is never written on
this path, so after a successful respawn the persisted record still carries
the pid persisted at start time while the live entry carries the new pid. -/
theorem monitor_respawn_store_frame (sid : String) (N : Nat) (svc : Service)
    (now : Nat) :
    (∀ (auto : Bool) (obsL : List MonitorObs) (st : PMState),
       (monitorRun sid auto N svc now obsL st).store = st.store) ∧
    (∀ (st : PMState) (m : ManagedProcess) (h q : Nat),
       lookupProc sid st.processes = some m → m.child = some h →
       m.restart_count < N → (splitWs svc.command.data).isEmpty = false →
       (monitorStep sid true N svc now (.exited true (some q)) st).1.store =
           st.store ∧
       ∃ m', lookupProc sid
           (monitorStep sid true N svc now (.exited true (some q)) st).1.processes =
             some m' ∧
         m'.pid = some q ∧ m'.child = some q ∧
         m'.start_time = some now ∧ m'.service.status = .Running) := by
  refine ⟨fun auto obsL st => monitorRun_store sid auto N svc now obsL st, ?_⟩
  intro st m h q hm hc hcount hcmd
  obtain ⟨st', hstep, hstore, hlook⟩ :=
    monitorStep_respawn sid N svc now st m h q hm hc hcount hcmd
  rw [hstep]
  exact ⟨hstore, _, hlook, rfl, rfl, rfl, rfl⟩

/-- Witness for C10: after the sample start persisted pid 42, a respawn with
new pid 9 leaves the store's record at pid 42 while the live entry moves to
pid 9. -/
theorem monitor_respawn_store_frame_witness :
    (monitorStep "svc" true 2 sampleService 7 (.exited true (some 9))
        sampleStarted).1.store = sampleStarted.store ∧
    (∃ m', lookupProc "svc"
        (monitorStep "svc" true 2 sampleService 7 (.exited true (some 9))
          sampleStarted).1.processes = some m' ∧
      m'.pid = some 9 ∧ m'.child = some 9 ∧
      m'.start_time = some 7 ∧ m'.service.status = .Running) ∧
    (∃ rec, rec ∈ sampleStarted.store ∧ rec.service_id = "svc" ∧ rec.pid = 42) := by
  have h := (monitor_respawn_store_frame "svc" 2 sampleService 7).2 sampleStarted
    _ 42 9 rfl rfl (by decide) (by decide)
  exact ⟨h.1, h.2, ⟨⟨"svc", 42, 7, "npm run dev", "/app", []⟩, by decide, rfl, rfl⟩⟩


/-! ### Log-query claim definitions and lemmas (C6) -/

/-- The query predicate exactly as claim C6 words it: service-id equality;
level equality compared case-insensitively, the literal value "all" disabling
the filter; timestamp bounds; and the message containing the search substring
when set and non-empty. -/
def claimRowMatchesC6 (f : LogFilters) (e : LogEntry) : Bool :=
  (match f.service_id with
   | none => true
   | some sid => decide (e.service_id = sid)) &&
  (match f.level with
   | none => true
   | some lv =>
     if lv = "all" then true
     else decide (lowerChars e.level.data = lowerChars lv.data)) &&
  (match f.fromTs with
   | none => true
   | some t => decide (t ≤ e.timestamp)) &&
  (match f.toTs with
   | none => true
   | some t => decide (e.timestamp ≤ t)) &&
  (match f.search with
   | none => true
   | some srch =>
     if srch.data.isEmpty then true
     else containsChars srch.data e.message.data)

/-- The query pipeline under claim C6's predicate. -/
def claimGetLogsC6 (f : LogFilters) (db : List LogEntry) : List LogEntry :=
  (((sortDescByTs (db.filter (claimRowMatchesC6 f))).drop f.offset).take
    f.limit).reverse

/-- The amended predicate: the level conjunct compares the stored level
verbatim against the lowercased filter value, any capitalisation of "all"
disabling the filter; the search conjunct is SQLite `LIKE '%search%'`
(ASCII-case-insensitive, `%`/`_` in the search string act as wildcards),
skipped when the search string is empty. -/
def amendedRowMatchesC6 (f : LogFilters) (e : LogEntry) : Bool :=
  (match f.service_id with
   | none => true
   | some sid => decide (e.service_id = sid)) &&
  (match f.level with
   | none => true
   | some lv =>
     if lowerChars lv.data = "all".data then true
     else decide (e.level.data = lowerChars lv.data)) &&
  (match f.fromTs with
   | none => true
   | some t => decide (t ≤ e.timestamp)) &&
  (match f.toTs with
   | none => true
   | some t => decide (e.timestamp ≤ t)) &&
  (match f.search with
   | none => true
   | some srch =>
     if srch.data.isEmpty then true
     else likeMatch ('%' :: srch.data ++ ['%']) e.message.data)

/-- The query pipeline under the amended predicate: filter, sort
newest-first, skip `offset`, keep `limit`, reverse to oldest-first. -/
def amendedGetLogsC6 (f : LogFilters) (db : List LogEntry) : List LogEntry :=
  (((sortDescByTs (db.filter (amendedRowMatchesC6 f))).drop f.offset).take
    f.limit).reverse

/-- A stored entry whose message contains "Error" but not "error". -/
def entryCex : LogEntry :=
  { timestamp := 5
    service_id := "s"
    level := "error"
    message := "Boot Error occurred" }

/-- A query searching for the lowercase string "error". -/
def filtersCex : LogFilters :=
  { LogFilters.default with search := some "error" }

/-- Counterexample to C6 as stated: the durable-store query matches the
search case-insensitively (SQL LIKE), so searching "error" returns an entry
whose message contains only "Error"; under the claim's plain-substring
reading that entry would be excluded. -/
theorem get_logs_like_vs_substring :
    getLogs filtersCex [entryCex] = [entryCex] ∧
    claimGetLogsC6 filtersCex [entryCex] = [] := by decide

theorem rowMatches_eq_amended (f : LogFilters) (e : LogEntry) :
    rowMatches f e = amendedRowMatchesC6 f e := by
  rcases hl : f.level with _ | lv <;> rcases hs : f.search with _ | srch <;>
    simp only [rowMatches, amendedRowMatchesC6, hl, hs]
  · by_cases hemp : srch.data.isEmpty <;> simp [hemp]
  · by_cases hall : lowerChars lv.data = "all".data <;> simp [hall]
  · by_cases hall : lowerChars lv.data = "all".data <;>
      by_cases hemp : srch.data.isEmpty <;> simp [hall, hemp]

theorem mem_insertDescByTs (e y : LogEntry) (l : List LogEntry) :
    y ∈ insertDescByTs e l ↔ y = e ∨ y ∈ l := by
  induction l with
  | nil => simp [insertDescByTs]
  | cons x xs ih =>
    by_cases h : x.timestamp ≤ e.timestamp <;>
      simp [insertDescByTs, h, ih] <;> tauto

theorem pairwise_insertDescByTs (e : LogEntry) (l : List LogEntry)
    (hl : l.Pairwise (fun a b => b.timestamp ≤ a.timestamp)) :
    (insertDescByTs e l).Pairwise (fun a b => b.timestamp ≤ a.timestamp) := by
  induction l with
  | nil => simp [insertDescByTs]
  | cons x xs ih =>
    rcases List.pairwise_cons.mp hl with ⟨hx, hxs⟩
    by_cases h : x.timestamp ≤ e.timestamp
    · rw [insertDescByTs, if_pos h]
      refine List.pairwise_cons.mpr ⟨?_, hl⟩
      intro y hy
      rcases List.mem_cons.mp hy with rfl | hy
      · exact h
      · exact le_trans (hx y hy) h
    · rw [insertDescByTs, if_neg h]
      refine List.pairwise_cons.mpr ⟨?_, ih hxs⟩
      intro y hy
      rcases (mem_insertDescByTs e y xs).mp hy with rfl | hy
      · exact le_of_lt (not_le.mp h)
      · exact hx y hy

theorem pairwise_sortDescByTs (l : List LogEntry) :
    (sortDescByTs l).Pairwise (fun a b => b.timestamp ≤ a.timestamp) := by
  induction l with
  | nil => simp [sortDescByTs]
  | cons x xs ih => exact pairwise_insertDescByTs x _ ih

theorem getLogs_sorted (f : LogFilters) (db : List LogEntry) :
    (getLogs f db).Pairwise (fun a b => a.timestamp ≤ b.timestamp) := by
  unfold getLogs
  rw [List.pairwise_reverse]
  exact List.Pairwise.sublist
    ((List.take_sublist _ _).trans (List.drop_sublist _ _))
    (pairwise_sortDescByTs _)

/-- C6 as amended: `get_logs` returns exactly the pipeline of the amended
predicate — conjunctive filters where the level compares the stored value
against the lowercased filter (any capitalisation of "all" disables it) and
the search is ASCII-case-insensitive SQL LIKE containment — sorted
newest-first, offset/limit applied, then reversed, so the output is ordered
oldest-first; the default limit is 1000. -/
theorem get_logs_amended_spec (f : LogFilters) (db : List LogEntry) :
    getLogs f db = amendedGetLogsC6 f db ∧
    (getLogs f db).Pairwise (fun a b => a.timestamp ≤ b.timestamp) ∧
    LogFilters.default.limit = 1000 := by
  refine ⟨?_, getLogs_sorted f db, rfl⟩
  have hfilter : db.filter (rowMatches f) = db.filter (amendedRowMatchesC6 f) :=
    List.filter_congr (fun x _ => rowMatches_eq_amended f x)
  rw [getLogs, amendedGetLogsC6, hfilter]

/-! ### Recovery-loop lemmas (C3) -/

theorem recoverOne_lookup_frame (env : RecoverEnv) (svcs : List Service)
    (saved : ServiceState) (st : PMState) (id : String)
    (h : saved.service_id ≠ id) :
    lookupProc id (recoverOne env svcs saved st).processes =
      lookupProc id st.processes := by
  unfold recoverOne
  split_ifs with halive
  · rcases hf : findService svcs saved.service_id with _ | svc2 <;>
      simp only [hf]
    exact lookupProc_insertProc_ne id saved.service_id _ _
      (fun hc => h hc.symm)
  · rfl

theorem recoverOne_store_frame (env : RecoverEnv) (svcs : List Service)
    (saved : ServiceState) (st : PMState) (t : ServiceState)
    (h : t.service_id ≠ saved.service_id) :
    (t ∈ (recoverOne env svcs saved st).store ↔ t ∈ st.store) := by
  unfold recoverOne
  split_ifs with halive
  · rcases hf : findService svcs saved.service_id with _ | svc2 <;>
      simp only [hf]
    · simp [mem_removeService, h]
    · rw [mem_addOrUpdateService]
      constructor
      · rintro (⟨ht, _⟩ | rfl)
        · exact ht
        · exact absurd rfl h
      · intro ht
        exact Or.inl ⟨ht, h⟩
  · simp [mem_removeService, h]

theorem recoverStates_lookup_frame (env : RecoverEnv) (svcs : List Service)
    (states : List ServiceState) (st : PMState) (id : String)
    (h : ∀ s ∈ states, s.service_id ≠ id) :
    lookupProc id (recoverStates env svcs states st).processes =
      lookupProc id st.processes := by
  induction states generalizing st with
  | nil => rfl
  | cons saved rest ih =>
    rw [recoverStates]
    rw [ih (recoverOne env svcs saved st)
      (fun s hs => h s (List.mem_cons_of_mem _ hs))]
    exact recoverOne_lookup_frame env svcs saved st id
      (h saved (List.mem_cons_self _ _))

theorem recoverStates_store_frame (env : RecoverEnv) (svcs : List Service)
    (states : List ServiceState) (st : PMState) (t : ServiceState)
    (h : ∀ s ∈ states, s.service_id ≠ t.service_id) :
    (t ∈ (recoverStates env svcs states st).store ↔ t ∈ st.store) := by
  induction states generalizing st with
  | nil => exact Iff.rfl
  | cons saved rest ih =>
    rw [recoverStates]
    exact (ih (recoverOne env svcs saved st)
        (fun s hs => h s (List.mem_cons_of_mem _ hs))).trans
      (recoverOne_store_frame env svcs saved st t
        (h saved (List.mem_cons_self _ _)).symm)

theorem recoverOne_effect (env : RecoverEnv) (svcs : List Service)
    (saved : ServiceState) (st : PMState) :
    (env.alive saved.pid = true →
      (∀ svc2, findService svcs saved.service_id = some svc2 →
        lookupProc saved.service_id (recoverOne env svcs saved st).processes =
          some (ManagedProcess.mk none
            { svc2 with status := .Running, updated_at := env.now }
            (some env.now) 0 (some saved.pid)) ∧
        saved ∈ (recoverOne env svcs saved st).store) ∧
      (findService svcs saved.service_id = none →
        (recoverOne env svcs saved st).processes = st.processes ∧
        (∀ u ∈ (recoverOne env svcs saved st).store,
          u.service_id ≠ saved.service_id))) ∧
    (env.alive saved.pid = false →
      (recoverOne env svcs saved st).processes = st.processes ∧
      (∀ u ∈ (recoverOne env svcs saved st).store,
        u.service_id ≠ saved.service_id)) := by
  constructor
  · intro halive
    constructor
    · intro svc2 hf
      unfold recoverOne
      rw [if_pos halive, hf]
      exact ⟨lookupProc_insertProc_self _ _ _,
        (mem_addOrUpdateService _ _ _).mpr (Or.inr rfl)⟩
    · intro hf
      unfold recoverOne
      rw [if_pos halive, hf]
      exact ⟨rfl, fun u hu => ((mem_removeService u _ _).mp hu).2⟩
  · intro hdead
    unfold recoverOne
    rw [if_neg (by simp [hdead])]
    exact ⟨rfl, fun u hu => ((mem_removeService u _ _).mp hu).2⟩

theorem recoverStates_mem_effect (env : RecoverEnv) (svcs : List Service) :
    ∀ (states : List ServiceState) (st : PMState),
      (states.map ServiceState.service_id).Nodup →
      ∀ saved ∈ states,
        lookupProc saved.service_id st.processes = none →
        (env.alive saved.pid = true →
          ∀ svc2, findService svcs saved.service_id = some svc2 →
            lookupProc saved.service_id
                (recoverStates env svcs states st).processes =
              some (ManagedProcess.mk none
                { svc2 with status := .Running, updated_at := env.now }
                (some env.now) 0 (some saved.pid)) ∧
            saved ∈ (recoverStates env svcs states st).store) ∧
        (env.alive saved.pid = true →
          findService svcs saved.service_id = none →
            (∀ u ∈ (recoverStates env svcs states st).store,
              u.service_id ≠ saved.service_id) ∧
            lookupProc saved.service_id
              (recoverStates env svcs states st).processes = none) ∧
        (env.alive saved.pid = false →
            (∀ u ∈ (recoverStates env svcs states st).store,
              u.service_id ≠ saved.service_id) ∧
            lookupProc saved.service_id
              (recoverStates env svcs states st).processes = none) := by
  intro states
  induction states with
  | nil => intro st _ saved hmem; exact absurd hmem (List.not_mem_nil saved)
  | cons head rest ih =>
    intro st hnodup saved hmem hnone
    have hnodup2 : (∀ s ∈ rest, s.service_id ≠ head.service_id) ∧
        (rest.map ServiceState.service_id).Nodup := by simpa using hnodup
    rcases List.mem_cons.mp hmem with rfl | hmem2
    · -- saved is the head element: recoverOne acts on it, the rest is framed
      have hrest : ∀ s ∈ rest, s.service_id ≠ saved.service_id := hnodup2.1
      have heff := recoverOne_effect env svcs saved st
      have hlf := recoverStates_lookup_frame env svcs rest
        (recoverOne env svcs saved st) saved.service_id hrest
      refine ⟨?_, ?_, ?_⟩
      · intro halive svc2 hf
        rw [recoverStates, hlf]
        refine ⟨((heff.1 halive).1 svc2 hf).1, ?_⟩
        exact (recoverStates_store_frame env svcs rest _ saved hrest).mpr
          ((heff.1 halive).1 svc2 hf).2
      · intro halive hf
        rw [recoverStates, hlf]
        refine ⟨?_, by rw [((heff.1 halive).2 hf).1]; exact hnone⟩
        intro u hu hc
        have hu2 : u ∈ (recoverOne env svcs saved st).store :=
          (recoverStates_store_frame env svcs rest _ u
            (fun s hs => hc ▸ hrest s hs)).mp hu
        exact ((heff.1 halive).2 hf).2 u hu2 hc
      · intro hdead
        rw [recoverStates, hlf]
        refine ⟨?_, by rw [(heff.2 hdead).1]; exact hnone⟩
        intro u hu hc
        have hu2 : u ∈ (recoverOne env svcs saved st).store :=
          (recoverStates_store_frame env svcs rest _ u
            (fun s hs => hc ▸ hrest s hs)).mp hu
        exact (heff.2 hdead).2 u hu2 hc
    · -- saved is further down: one recoverOne step cannot touch its id
      have hne : head.service_id ≠ saved.service_id :=
        (hnodup2.1 saved hmem2).symm
      have hnone2 : lookupProc saved.service_id
          (recoverOne env svcs head st).processes = none := by
        rw [recoverOne_lookup_frame env svcs head st saved.service_id hne]
        exact hnone
      have := ih (recoverOne env svcs head st) hnodup2.2 saved hmem2 hnone2
      rw [recoverStates]
      exact this

/-- C3: at boot (empty live map), for every loaded persisted record with
distinct service ids: if its pid is alive and its service id matches a known
descriptor, recovery inserts a handle-less live entry with status Running
(restart count 0, pid from the record) and keeps the refreshed — in fact
field-identical — persisted record; if its pid is dead, or its service id
matches no known descriptor, recovery drops the record from the persisted
store and inserts no live entry. -/
theorem recover_processes_spec (env : RecoverEnv) (svcs : List Service)
    (states : List ServiceState) (st0 : PMState)
    (hboot : st0.processes = [])
    (hnodup : (states.map ServiceState.service_id).Nodup) :
    ∀ saved ∈ states,
      (env.alive saved.pid = true →
        ∀ svc2, findService svcs saved.service_id = some svc2 →
          lookupProc saved.service_id
              (recoverStates env svcs states st0).processes =
            some (ManagedProcess.mk none
              { svc2 with status := .Running, updated_at := env.now }
              (some env.now) 0 (some saved.pid)) ∧
          saved ∈ (recoverStates env svcs states st0).store) ∧
      (env.alive saved.pid = true →
        findService svcs saved.service_id = none →
          (∀ u ∈ (recoverStates env svcs states st0).store,
            u.service_id ≠ saved.service_id) ∧
          lookupProc saved.service_id
            (recoverStates env svcs states st0).processes = none) ∧
      (env.alive saved.pid = false →
          (∀ u ∈ (recoverStates env svcs states st0).store,
            u.service_id ≠ saved.service_id) ∧
          lookupProc saved.service_id
            (recoverStates env svcs states st0).processes = none) := by
  intro saved hmem
  refine recoverStates_mem_effect env svcs states st0 hnodup saved hmem ?_
  rw [hboot]
  rfl

/-- A persisted record whose pid (42) is alive and whose id is known. -/
def recStateA : ServiceState :=
  { service_id := "svc"
    pid := 42
    started_at := 3
    command := "npm run dev"
    working_dir := "/app"
    environment := [] }

/-- A persisted record whose pid (50) is dead. -/
def recStateD : ServiceState :=
  { service_id := "gone"
    pid := 50
    started_at := 4
    command := "old"
    working_dir := "/tmp"
    environment := [] }

/-- A recovery environment in which only pid 42 is alive. -/
def aliveEnv : RecoverEnv := { alive := fun p => p == 42, now := 9 }

/-- Witness for C3: recovering one live record ("svc", pid 42) and one dead
record ("gone", pid 50) against the sample descriptor list inserts exactly
the handle-less Running entry for "svc", keeps its persisted record, and
drops "gone" from the store with no live entry. -/
theorem recover_processes_spec_witness :
    (lookupProc "svc"
        (recoverStates aliveEnv [sampleService] [recStateA, recStateD]
          emptyState).processes =
      some (ManagedProcess.mk none
        { sampleService with status := .Running, updated_at := 9 }
        (some 9) 0 (some 42)) ∧
     recStateA ∈ (recoverStates aliveEnv [sampleService] [recStateA, recStateD]
          emptyState).store) ∧
    ((∀ u ∈ (recoverStates aliveEnv [sampleService] [recStateA, recStateD]
          emptyState).store, u.service_id ≠ "gone") ∧
     lookupProc "gone"
        (recoverStates aliveEnv [sampleService] [recStateA, recStateD]
          emptyState).processes = none) := by
  have h1 := recover_processes_spec aliveEnv [sampleService]
    [recStateA, recStateD] emptyState rfl (by decide) recStateA (by decide)
  have h2 := recover_processes_spec aliveEnv [sampleService]
    [recStateA, recStateD] emptyState rfl (by decide) recStateD (by decide)
  exact ⟨h1.1 rfl sampleService rfl, h2.2.2 rfl⟩

end Panel
